import Mathlib

/-!
# Verification of the card-game economy core of `bot.py`

This file gives a shallow embedding of the economy core of the bot
(card catalog, currency ledger, rarity draw engine, fusion engine,
resource regenerator, matchmaking queue and battle resolver) and proves
the properties claimed by the specification against it.

Modelling conventions:
* Python dicts that are used as ordered key/value tables (pack
  probabilities, prices, reward ranges, the rarity upgrade map) become
  association lists `List (key × value)`, preserving the declared
  insertion order; `d.get(k)` becomes `List.lookup`, `d.get(k, v)`
  becomes `(List.lookup ..).getD v`.
* Python floats (probability weights, `random.random()`) are modelled
  as exact rationals `ℚ`.
* `datetime` values are modelled as integer timestamps in seconds;
  `timedelta.total_seconds()` becomes integer subtraction.
* Randomness is modelled by passing the sampled value explicitly:
  `random.random() * 100` becomes a parameter `rand : ℚ`,
  `random.choice(pool)` becomes `pyChoice pool k` for a parameter
  `k : Nat` (index `k % pool.length`; `none` when the pool is empty,
  which is where Python raises `IndexError`), and
  `random.randint(low, high)` becomes `pyRandint low high roll` for a
  parameter `roll : Nat`.
* Card records are Python dicts; the fields that the economy core reads
  are modelled as a structure (presentation-only fields such as
  `acquired_date`, localized rarity names, country, description and
  cached media ids are not modelled: the core never branches on them).
* Telegram/UI failures and message sending are ignored; each handler is
  modelled as the state transformation it performs on the account data.
-/

namespace FootballM

/-- `Language` of an account (`Language.RU` / `Language.EN` in the source). -/
inductive Language where
  | ru
  | en
deriving DecidableEq

/-- The card-record fields read by the economy core of `bot.py`.
`none` for an `Option` field models the key being absent from the dict
(or holding `None`). -/
structure Card where
  name_en : Option String
  name_ru : Option String
  name : Option String
  rarity : Option String
  user_card_id : Option Nat
  ovr : Int
deriving DecidableEq

/-- The per-account state of `UserData.__init__` (presentation fields
omitted). -/
structure UserData where
  user_id : Nat
  username : Option String
  coins : Int
  gems : Int
  candies : Int
  stars_balance : Int
  collection : List Card
  language : Language
  card_id_counter : Nat
  free_packs : Int
  last_free_pack_time : Int
  dice_wins : Nat
  dice_losses : Nat
  dice_total : Nat
  elo : Int
  packs_opened_total : Nat
  clan_id : Option Nat
deriving DecidableEq

/-- `UserData.__init__`: the defaults of a freshly created account
(`now` is the creation timestamp used for `last_free_pack_time`). -/
def UserData.init (uid : Nat) (username : Option String) (now : Int) : UserData :=
  { user_id := uid
    username := username
    coins := 1000
    gems := 0
    candies := 0
    stars_balance := 0
    collection := []
    language := Language.ru
    card_id_counter := 1
    free_packs := 5
    last_free_pack_time := now
    dice_wins := 0
    dice_losses := 0
    dice_total := 0
    elo := 1000
    packs_opened_total := 0
    clan_id := none }

/-- Python `x or y` on optional strings: an absent key or an empty
string falls through to the alternative. -/
def pyOrStr (o : Option String) (alt : String) : String :=
  match o with
  | none => alt
  | some s => if s = "" then alt else s

/-- Python `str.lower()` (list-based so the kernel can evaluate it;
`Char.toLower` only lowers ASCII, which agrees with Python on every
string the rarity tables compare against). -/
def pyLower (s : String) : String :=
  String.mk (s.toList.map Char.toLower)

/-- Python `str.strip()`: drop leading and trailing whitespace. -/
def pyStrip (s : String) : String :=
  String.mk (((s.toList.dropWhile Char.isWhitespace).reverse.dropWhile Char.isWhitespace).reverse)

/-- `random.choice(l)` with the random index passed explicitly:
returns the element at `k % l.length`, `none` on the empty list
(where Python raises `IndexError`). -/
def pyChoice {α : Type} (l : List α) (k : Nat) : Option α :=
  l[k % l.length]?

/-- `random.randint(low, high)` with the sample passed explicitly. -/
def pyRandint (low high : Nat) (roll : Nat) : Nat :=
  low + roll % (high - low + 1)

/-! ## Rarity tables -/

/-- `RARITY_ALIASES` (only lowercase keys appear, as in the source). -/
def RARITY_ALIASES : List (String × String) :=
  [("common", "common"), ("обычная", "common"), ("обыкновенная", "common"), ("обычный", "common"),
   ("rare", "rare"), ("редкая", "rare"), ("редкий", "rare"),
   ("epic", "epic"), ("эпическая", "epic"), ("эпик", "epic"),
   ("legendary", "legendary"), ("легендарная", "legendary"), ("лега", "legendary"),
   ("mythic", "mythic"), ("мифическая", "mythic"), ("мифик", "mythic"),
   ("candy", "candy"), ("конфетная", "candy"), ("конфетный", "candy"), ("🍬", "candy")]

/-- The emoji characters removed by the regex in `normalize_rarity`. -/
def RARITY_EMOJI : List Char := ['🟢', '🔵', '🟣', '👑', '🤍', '💎']

/-- `re.sub(r"[🟢🔵🟣👑🤍💎]+", "", v)`. -/
def stripRarityEmoji (s : String) : String :=
  String.mk (s.toList.filter (fun c => !(RARITY_EMOJI.contains c)))

/-- `normalize_rarity(value)`; the argument is optional because call
sites pass `card.get("rarity")`, which may be absent.  (Python `.lower()`
also lowercases Cyrillic; `String.toLower` only changes ASCII, which
agrees on every alias key since they are stored lowercase.) -/
def normalize_rarity (value : Option String) : String :=
  match value with
  | none => "common"
  | some s =>
    if s = "" then "common"
    else
      let v := pyStrip (stripRarityEmoji (pyLower (pyStrip s)))
      (RARITY_ALIASES.lookup v).getD v

/-- `RARITY_UPGRADE_MAP`: which rarity a fusion upgrades to; rarities
missing from the map (`mythic`, `candy`, anything unknown) have no
upgrade. -/
def RARITY_UPGRADE_MAP : List (String × String) :=
  [("common", "rare"), ("rare", "epic"), ("epic", "legendary"), ("legendary", "mythic")]

/-- `CANDY_REWARD_RANGES`: the per-rarity `(low, high)` reward range of
a fusion. -/
def CANDY_REWARD_RANGES : List (String × Nat × Nat) :=
  [("common", 2, 6), ("rare", 5, 12), ("epic", 10, 22),
   ("legendary", 18, 35), ("mythic", 28, 60), ("candy", 35, 60)]

/-- `get_candies_for_fuse(rarity)` with the `randint` sample passed as
`roll`: pick in the per-rarity range, clamp into `[0, 60]`. -/
def get_candies_for_fuse (rarity : String) (roll : Nat) : Int :=
  let r := normalize_rarity (some rarity)
  let range := (CANDY_REWARD_RANGES.lookup r).getD (2, 6)
  let gained : Int := pyRandint range.1 range.2 roll
  min 60 (max 0 gained)

/-- `card_identity_key(card)`: (case-insensitive stripped display name,
rarity).  The Python `or`-chain skips absent and empty name fields. -/
def card_identity_key (c : Card) : String × String :=
  let name := pyOrStr c.name_en (pyOrStr c.name_ru (pyOrStr c.name ""))
  (pyLower (pyStrip name), c.rarity.getD "common")

/-- `count_duplicates(collection, target_card)`. -/
def count_duplicates (collection : List Card) (target : Card) : Nat :=
  collection.countP (fun c => card_identity_key c == card_identity_key target)

/-! ## Rarity draw engine (`get_random_card`) -/

/-- The `"basic"` entry of `PACK_PROBABILITIES` (also the default for an
unknown pack type). -/
def BASIC_PROBS : List (String × ℚ) :=
  [("common", 60), ("rare", 35), ("epic", 4), ("legendary", 9/10), ("mythic", 1/10)]

/-- `PACK_PROBABILITIES`: ordered per-pack `(rarity, weight)` lists. -/
def PACK_PROBABILITIES : List (String × List (String × ℚ)) :=
  [("basic", BASIC_PROBS),
   ("premium", [("rare", 55), ("epic", 30), ("legendary", 13), ("mythic", 2)]),
   ("ultra", [("legendary", 90), ("mythic", 10)])]

/-- The weight-accumulation loop of `get_random_card`: walk the
`(rarity, prob)` list in order keeping a running sum `cum`; the first
rarity whose running sum strictly exceeds `rand` is selected, with
`"common"` (the initial value of `selected_rarity`) when none triggers. -/
def select_rarity_go : List (String × ℚ) → ℚ → ℚ → String
  | [], _, _ => "common"
  | (rar, prob) :: rest, rand, cum =>
    let cum' := cum + prob
    if rand < cum' then rar else select_rarity_go rest rand cum'

/-- `rarity_fallback_order` in `get_random_card` / fusion. -/
def RARITY_FALLBACK_ORDER : List String :=
  ["mythic", "legendary", "epic", "rare", "common"]

/-- The bucket loop of `get_random_card`: the first tier of `tiers`
whose catalog bucket is non-empty, `none` when every bucket is empty. -/
def first_nonempty_pool (catalog : List Card) : List String → Option (List Card)
  | [] => none
  | r :: rest =>
    let pool := catalog.filter (fun c => c.rarity == some r)
    if pool.isEmpty then first_nonempty_pool catalog rest else some pool

/-- `get_random_card(pack_type)`. `catalog` is `FOOTBALL_PLAYERS`,
`rand` is `random.random() * 100`, and `k` the `random.choice` sample.
Returns the drawn card with `user_card_id` unset, or `none` where the
Python code would raise `IndexError` (`random.choice` on an empty
catalog). -/
def get_random_card (catalog : List Card) (pack_type : String) (rand : ℚ) (k : Nat) :
    Option Card :=
  let probabilities := (PACK_PROBABILITIES.lookup pack_type).getD BASIC_PROBS
  let selected_rarity := select_rarity_go probabilities rand 0
  let start_idx :=
    match RARITY_FALLBACK_ORDER.indexOf? selected_rarity with
    | some i => i
    | none => RARITY_FALLBACK_ORDER.length - 1
  let chosen :=
    match first_nonempty_pool catalog (RARITY_FALLBACK_ORDER.drop start_idx) with
    | some pool => pyChoice pool k
    | none => pyChoice catalog k
  match chosen with
  | none => none
  | some c => some { c with user_card_id := none }

/-! ### Specification-side reformulation of the draw engine (for C3) -/

/-- The running sums of a weight list, in declared order. -/
def cumulative_sums : List (String × ℚ) → ℚ → List (String × ℚ)
  | [], _ => []
  | (rar, prob) :: rest, cum => (rar, cum + prob) :: cumulative_sums rest (cum + prob)

/-- Specification reading of rarity selection: the first entry, in
declared order, whose running weight sum exceeds `rand`; the lowest
tier (`"common"`) when no entry triggers. -/
def spec_selected_rarity (probs : List (String × ℚ)) (rand : ℚ) : String :=
  match (cumulative_sums probs 0).find? (fun x => rand < x.2) with
  | some x => x.1
  | none => "common"

/-- Specification reading of the pool the drawn card is picked from:
the first tier of the fixed ladder, starting at the selected rarity,
with at least one catalog entry; the whole catalog when every tier is
empty. -/
def spec_draw_pool (catalog : List Card) (pack_type : String) (rand : ℚ) : List Card :=
  let probs := (PACK_PROBABILITIES.lookup pack_type).getD BASIC_PROBS
  let sel := spec_selected_rarity probs rand
  let start :=
    match RARITY_FALLBACK_ORDER.indexOf? sel with
    | some i => i
    | none => RARITY_FALLBACK_ORDER.length - 1
  let buckets := (RARITY_FALLBACK_ORDER.drop start).map
    (fun r => catalog.filter (fun c => c.rarity == some r))
  match buckets.find? (fun p => !p.isEmpty) with
  | some pool => pool
  | none => catalog

/-! ## Fusion engine (`callback_fuse_duplicates`) -/

/-- The removal loop of `callback_fuse_duplicates`: walk the
collection, dropping an identity-matching card while fewer than 5 have
been removed (`removed` is the running counter), keeping everything
else in order. -/
def remove_dups (key : String × String) : List Card → Nat → List Card
  | [], _ => []
  | c :: rest, removed =>
    if removed < 5 ∧ card_identity_key c = key then remove_dups key rest (removed + 1)
    else c :: remove_dups key rest removed

/-- Result of a fusion attempt.  The error constructors carry the
account state at the moment of the early return (which the handler has
not mutated).  `catalogEmpty` models the `IndexError` that
`random.choice` raises on a fully empty catalog — it carries the
partially mutated state (duplicates removed, candies credited) that the
in-place Python mutation leaves behind. -/
inductive FuseOutcome where
  | notFound (u : UserData)
  | maxRarity (u : UserData)
  | insufficientDuplicates (u : UserData)
  | catalogEmpty (u : UserData)
  | success (u : UserData) (newCard : Card) (reward : Int)
deriving DecidableEq

/-- The mutation block of `callback_fuse_duplicates`, reached once all
three preconditions have passed: remove 5 identity-matching instances,
credit the candy reward, draw the replacement at `next_rarity` (with
the fallback walk when that bucket is empty), append it. -/
def fuse_commit (catalog : List Card) (u : UserData) (target : Card)
    (next_rarity : String) (roll k : Nat) : FuseOutcome :=
  let rarity := target.rarity.getD "common"
  let key := card_identity_key target
  let u1 := { u with collection := remove_dups key u.collection 0 }
  let candies_gained := get_candies_for_fuse rarity roll
  let u2 := { u1 with candies := u1.candies + max 0 candies_gained }
  let pool := catalog.filter (fun c => c.rarity == some next_rarity)
  let chosen : Option Card :=
    if pool.isEmpty then
      let start_idx :=
        match RARITY_FALLBACK_ORDER.indexOf? next_rarity with
        | some i => i
        | none => 0
      match first_nonempty_pool catalog (RARITY_FALLBACK_ORDER.drop start_idx) with
      | some p2 => pyChoice p2 k
      | none => pyChoice catalog k
    else pyChoice pool k
  match chosen with
  | none => .catalogEmpty u2
  | some c =>
    let newCard := { c with user_card_id := some u2.card_id_counter }
    .success
      { u2 with
        card_id_counter := u2.card_id_counter + 1
        collection := u2.collection ++ [newCard] }
      newCard candies_gained

/-- The fusion core of `callback_fuse_duplicates` (everything after it
has resolved the pressed button to a `card_id`): `roll` is the
`randint` sample of the candy reward, `k` the `random.choice` sample of
the replacement card. -/
def fuse (catalog : List Card) (u : UserData) (card_id : Nat) (roll k : Nat) :
    FuseOutcome :=
  match u.collection.find? (fun c => c.user_card_id == some card_id) with
  | none => .notFound u
  | some target =>
    let rarity := target.rarity.getD "common"
    match RARITY_UPGRADE_MAP.lookup rarity with
    | none => .maxRarity u
    | some next_rarity =>
      let dup_count := count_duplicates u.collection target
      if dup_count < 5 then .insufficientDuplicates u
      else fuse_commit catalog u target next_rarity roll k

/-- The account state carried by a fusion outcome. -/
def FuseOutcome.state : FuseOutcome → UserData
  | .notFound u => u
  | .maxRarity u => u
  | .insufficientDuplicates u => u
  | .catalogEmpty u => u
  | .success u _ _ => u

/-- The account state after a fusion attempt (success and the
`IndexError` path leave their mutations; the typed failures leave the
account untouched). -/
def fuse_apply (catalog : List Card) (u : UserData) (card_id : Nat) (roll k : Nat) :
    UserData :=
  (fuse catalog u card_id roll k).state

/-- Whether a fusion attempt succeeded. -/
def FuseOutcome.isSuccess : FuseOutcome → Bool
  | .success _ _ _ => true
  | _ => false

/-! ## Pack purchase (`callback_buy_pack`) -/

/-- `PACK_PRICES`: per pack type, the `(coins, gems)` price. -/
def PACK_PRICES : List (String × Int × Int) :=
  [("basic", 100, 0), ("premium", 0, 50), ("free", 0, 0), ("ultra", 0, 500)]

/-- Result of `callback_buy_pack`.  Error constructors carry the
(unmutated) account state of the early return; `drawFailed` models the
`IndexError` of a draw over an empty catalog, carrying the post-debit
state it leaves behind. -/
inductive BuyOutcome where
  | unknownPack (u : UserData)
  | notEnoughCoins (u : UserData)
  | notEnoughGems (u : UserData)
  | drawFailed (u : UserData)
  | ok (u : UserData) (card : Card)
deriving DecidableEq

/-- The account state carried by a pack-purchase outcome. -/
def BuyOutcome.state : BuyOutcome → UserData
  | .unknownPack u => u
  | .notEnoughCoins u => u
  | .notEnoughGems u => u
  | .drawFailed u => u
  | .ok u _ => u

/-- `callback_buy_pack`: check both price components against the
balances, then debit, then draw and append the card. -/
def callback_buy_pack (catalog : List Card) (u : UserData) (pack_type : String)
    (rand : ℚ) (k : Nat) : BuyOutcome :=
  match PACK_PRICES.lookup pack_type with
  | none => .unknownPack u
  | some price =>
    let need_coins := price.1
    let need_gems := price.2
    if need_coins ≠ 0 ∧ u.coins < need_coins then .notEnoughCoins u
    else if need_gems ≠ 0 ∧ u.gems < need_gems then .notEnoughGems u
    else
      let u1 := if need_coins ≠ 0 then { u with coins := u.coins - need_coins } else u
      let u2 := if need_gems ≠ 0 then { u1 with gems := u1.gems - need_gems } else u1
      match get_random_card catalog pack_type rand k with
      | none => .drawFailed u2
      | some c =>
        let card := { c with user_card_id := some u2.card_id_counter }
        .ok
          { u2 with
            card_id_counter := u2.card_id_counter + 1
            collection := u2.collection ++ [card] }
          card

/-! ## Free packs (`callback_open_free_pack` and the regenerator) -/

/-- `UserData.check_free_packs_refresh`: if at least 4 hours have
passed since the last refill, reset the free-pack count to 5 and the
refill timestamp to `now`, reporting `true`; otherwise leave the
account untouched and report `false`. -/
def UserData.check_free_packs_refresh (u : UserData) (now : Int) : Bool × UserData :=
  let time_diff := now - u.last_free_pack_time
  if time_diff ≥ 4 * 3600 then
    (true, { u with free_packs := 5, last_free_pack_time := now })
  else (false, u)

/-- The `seconds_left` computation of `UserData.get_free_packs_time_left`. -/
def free_packs_seconds_left (u : UserData) (now : Int) : Int :=
  max 0 (4 * 3600 - (now - u.last_free_pack_time))

/-- `UserData.get_free_packs_time_left`, returning the `(hours,
minutes)` pair that the source formats into a localized string. -/
def UserData.get_free_packs_time_left (u : UserData) (now : Int) : Int × Int :=
  let seconds_left := free_packs_seconds_left u now
  (seconds_left / 3600, seconds_left % 3600 / 60)

/-- Result of `callback_open_free_pack`. -/
inductive FreePackOutcome where
  | noPacks (u : UserData)
  | drawFailed (u : UserData)
  | ok (u : UserData) (card : Card)
deriving DecidableEq

/-- The account state carried by a free-pack outcome. -/
def FreePackOutcome.state : FreePackOutcome → UserData
  | .noPacks u => u
  | .drawFailed u => u
  | .ok u _ => u

/-- `callback_open_free_pack`: lazily refresh the free-pack count,
fail when none is left, otherwise draw a basic-pack card, append it and
consume one free pack. -/
def callback_open_free_pack (catalog : List Card) (u : UserData) (now : Int)
    (rand : ℚ) (k : Nat) : FreePackOutcome :=
  let u0 := (u.check_free_packs_refresh now).2
  if u0.free_packs ≤ 0 then .noPacks u0
  else
    match get_random_card catalog "basic" rand k with
    | none => .drawFailed u0
    | some c =>
      let card := { c with user_card_id := some u0.card_id_counter }
      .ok
        { u0 with
          card_id_counter := u0.card_id_counter + 1
          collection := u0.collection ++ [card]
          free_packs := u0.free_packs - 1
          packs_opened_total := u0.packs_opened_total + 1 }
        card

/-! ## Candy shop (`callback_buy_candy_random`) -/

/-- `CANDY_SHOP_PRICE_RANDOM`. -/
def CANDY_SHOP_PRICE_RANDOM : Int := 50

/-- The hardcoded fallback card of `get_candy_pool` (identity fields
only). -/
def SWEET_JOKER : Card :=
  { name_ru := some "Сладкий Джокер"
    name_en := some "Sweet Joker"
    name := none
    rarity := some "candy"
    user_card_id := none
    ovr := 88 }

/-- `get_candy_pool()`: the candy-rarity bucket of the catalog, or the
fallback joker when the catalog has no candy cards. -/
def get_candy_pool (catalog : List Card) : List Card :=
  let pool := catalog.filter (fun c => normalize_rarity c.rarity == "candy")
  if pool.isEmpty then [SWEET_JOKER] else pool

/-- Result of `callback_buy_candy_random`. -/
inductive CandyBuyOutcome where
  | notEnoughCandies (u : UserData)
  | ok (u : UserData) (card : Card)
deriving DecidableEq

/-- The account state carried by a candy-purchase outcome. -/
def CandyBuyOutcome.state : CandyBuyOutcome → UserData
  | .notEnoughCandies u => u
  | .ok u _ => u

/-- `callback_buy_candy_random`: spend 50 candies for a uniformly
random candy-pool card.  (`get_candy_pool` never returns an empty list,
so the `random.choice` cannot raise; `SWEET_JOKER` as `getD` default is
unreachable.) -/
def callback_buy_candy_random (catalog : List Card) (u : UserData) (k : Nat) :
    CandyBuyOutcome :=
  let price := CANDY_SHOP_PRICE_RANDOM
  if u.candies < price then .notEnoughCandies u
  else
    let u1 := { u with candies := u.candies - price }
    let pool := get_candy_pool catalog
    let chosen := (pyChoice pool k).getD SWEET_JOKER
    let card := { chosen with user_card_id := some u1.card_id_counter }
    .ok
      { u1 with
        card_id_counter := u1.card_id_counter + 1
        collection := u1.collection ++ [card] }
      card

/-! ## Stars → diamonds conversion (`callback_stars_buy_diamonds_apply`) -/

/-- `DIAMONDS_FOR_STARS`: per package key, `(diamonds, cost_stars)`. -/
def DIAMONDS_FOR_STARS : List (String × Int × Int) :=
  [("d500", 500, 250), ("d1000", 1000, 450), ("d2500", 2500, 800)]

/-- Result of `callback_stars_buy_diamonds_apply`. -/
inductive StarsBuyOutcome where
  | unknownPack (u : UserData)
  | notEnoughStars (u : UserData)
  | ok (u : UserData)
deriving DecidableEq

/-- The account state carried by a Stars-conversion outcome. -/
def StarsBuyOutcome.state : StarsBuyOutcome → UserData
  | .unknownPack u => u
  | .notEnoughStars u => u
  | .ok u => u

/-- `callback_stars_buy_diamonds_apply`: check the Stars balance
against the package cost, then debit Stars and credit gems. -/
def callback_stars_buy_diamonds_apply (u : UserData) (key : String) : StarsBuyOutcome :=
  match DIAMONDS_FOR_STARS.lookup key with
  | none => .unknownPack u
  | some pack =>
    let cost := pack.2
    let stars := u.stars_balance
    if stars < cost then .notEnoughStars u
    else .ok { u with stars_balance := stars - cost, gems := u.gems + pack.1 }

/-! ## Dice and mini-games -/

/-- Result of `callback_roll_dice`. -/
inductive DiceOutcome where
  | notEnoughCoins (u : UserData)
  | done (u : UserData)
deriving DecidableEq

/-- The account state carried by a dice-game outcome. -/
def DiceOutcome.state : DiceOutcome → UserData
  | .notEnoughCoins u => u
  | .done u => u

/-- `callback_roll_dice`: stake 100 coins on a Telegram die
(`dice_value` is the animation's value); 4 or higher pays 500 coins and
10 gems. -/
def callback_roll_dice (u : UserData) (dice_value : Nat) : DiceOutcome :=
  if u.coins < 100 then .notEnoughCoins u
  else
    let u1 := { u with coins := u.coins - 100 }
    let u2 :=
      if dice_value ≥ 4 then
        { u1 with coins := u1.coins + 500, gems := u1.gems + 10, dice_wins := u1.dice_wins + 1 }
      else { u1 with dice_losses := u1.dice_losses + 1 }
    .done { u2 with dice_total := u2.dice_total + 1 }

/-- The coin payout tables of `callback_minigame_play`; `sample` is the
value drawn by `random.choices` (hits for volleyball, score for darts,
pins for bowling). -/
def minigame_coins (game : String) (sample : Nat) : Int :=
  if game = "mg_volleyball" then
    if sample = 0 then 0
    else if sample = 1 then 50
    else if sample = 2 then 120
    else 250
  else if game = "mg_darts" then
    if sample = 0 then 0
    else if sample = 10 then 40
    else if sample = 25 then 90
    else if sample = 50 then 160
    else 300
  else
    if sample = 10 then 320
    else if sample ≥ 7 then 180
    else if sample ≥ 4 then 90
    else if sample ≥ 1 then 30
    else 0

/-- `callback_minigame_play`: credit the (non-negative) payout when it
is positive. -/
def callback_minigame_play (u : UserData) (game : String) (sample : Nat) : UserData :=
  let coins := minigame_coins game sample
  if coins > 0 then { u with coins := u.coins + coins } else u

/-! ## Battles -/

/-- The `levels` table of `callback_battle_ai_level`: per level,
`(ovr, win reward, lose penalty)`. -/
def AI_LEVELS : List (String × Int × Int × Int) :=
  [("novice", 200, 25, 10), ("amateur", 250, 50, 15),
   ("pro", 300, 75, 25), ("star", 350, 100, 50)]

/-- Result of `callback_battle_ai_level`. -/
inductive AiBattleOutcome where
  | unknownLevel (u : UserData)
  | done (won : Bool) (u : UserData)
deriving DecidableEq

/-- The account state carried by a scripted-battle outcome. -/
def AiBattleOutcome.state : AiBattleOutcome → UserData
  | .unknownLevel u => u
  | .done _ u => u

/-- The battle resolution of `callback_battle_ai_level` (after
`get_best_team` has produced a lineup of total rating `total_ovr`):
win with chance 0.84 when the lineup strictly outrates the scripted
opponent, 0.16 otherwise; `sample` is the `random.random()` draw.  The
winner gains the level's coin reward; the loser's coins drop by the
level's penalty, floored at 0.  The rating (`elo`) is not touched. -/
def callback_battle_ai_level (u : UserData) (level : String) (total_ovr : Int)
    (sample : ℚ) : AiBattleOutcome :=
  match AI_LEVELS.lookup level with
  | none => .unknownLevel u
  | some z =>
    let ai_ovr := z.1
    let reward_win := z.2.1
    let penalty_lose := z.2.2
    let win_chance : ℚ := if total_ovr > ai_ovr then 84/100 else 16/100
    if sample < win_chance then .done true { u with coins := u.coins + reward_win }
    else .done false { u with coins := max 0 (u.coins - penalty_lose) }

/-- `conduct_pvp_battle` (the currency/rating mutations): player 1 is
the requester whose arrival completed the pairing.  Returns whether
player 1 won, and both updated accounts: the winner gains 100 coins and
+30 elo, the loser loses 50 coins and 25 elo, both floored at 0. -/
def conduct_pvp_battle (p1 p2 : UserData) (ovr1 ovr2 : Int) (sample : ℚ) :
    Bool × UserData × UserData :=
  let win_chance_p1 : ℚ := if ovr1 > ovr2 then 84/100 else 16/100
  let p1_wins := sample < win_chance_p1
  if p1_wins then
    (true,
     { p1 with coins := p1.coins + 100, elo := p1.elo + 30 },
     { p2 with coins := max 0 (p2.coins - 50), elo := max 0 (p2.elo - 25) })
  else
    (false,
     { p1 with coins := max 0 (p1.coins - 50), elo := max 0 (p1.elo - 25) },
     { p2 with coins := p2.coins + 100, elo := p2.elo + 30 })

/-! ## Matchmaking queue -/

/-- A `battle_queue` entry.  The source entry also carries the user
object, the assembled team and the Telegram message used to report the
search — presentation payload that the queue discipline never branches
on; the pairing and cancellation logic reads only `user_id`. -/
structure Ticket where
  user_id : Nat
  total_ovr : Int
deriving DecidableEq

/-- Matchmaking result of `callback_battle_pvp`. -/
inductive MatchOutcome where
  | paired (opponent : Ticket)
  | searching
deriving DecidableEq

/-- The queue logic of `callback_battle_pvp` (run under `battle_lock`,
after team assembly): drop any stale ticket of the requester, scan for
the first ticket of a different account; consume it and battle when
found, enqueue the requester otherwise. -/
def callback_battle_pvp (q : List Ticket) (t : Ticket) : MatchOutcome × List Ticket :=
  let q1 := q.filter (fun e => !(e.user_id == t.user_id))
  match q1.find? (fun e => !(e.user_id == t.user_id)) with
  | some opp => (.paired opp, q1.erase opp)
  | none => (.searching, q1 ++ [t])

/-- The queue logic of `callback_battle_cancel_search` (run under
`battle_lock`): remove the first ticket of the requester and report
`true`, or report `false` when none is queued.  This is the loop
`for entry in battle_queue: if match: remove; break` of the source. -/
def callback_battle_cancel_search (q : List Ticket) (uid : Nat) : Bool × List Ticket :=
  match q with
  | [] => (false, [])
  | e :: rest =>
    if e.user_id == uid then (true, rest)
    else
      let r := callback_battle_cancel_search rest uid
      (r.1, e :: r.2)

/-! ## Account reset (`callback_reset_yes` / `cmd_reset`) -/

/-- The full-account reset (identical in `callback_reset_yes` and
`cmd_reset`): restore the default coins, clear the other resettable
fields and the collection, restock the free packs with a fresh refill
timestamp.  `elo`, `stars_balance`, `packs_opened_total`, `language`
and `clan_id` are not assigned. -/
def callback_reset_yes (u : UserData) (now : Int) : UserData :=
  { u with
    coins := 1000
    gems := 0
    candies := 0
    collection := []
    card_id_counter := 1
    free_packs := 5
    last_free_pack_time := now
    dice_wins := 0
    dice_losses := 0
    dice_total := 0 }

/-! ## Operation sequences over one account (for the currency invariant) -/

/-- One exposed operation on a single account, with every random sample
and external input carried explicitly.  For a PvP battle the account may
take part as the requester (player 1) or as the queued opponent
(player 2). -/
inductive Op where
  | buyPack (catalog : List Card) (pack_type : String) (rand : ℚ) (k : Nat)
  | openFreePack (catalog : List Card) (now : Int) (rand : ℚ) (k : Nat)
  | fuseDup (catalog : List Card) (card_id : Nat) (roll : Nat) (k : Nat)
  | buyCandy (catalog : List Card) (k : Nat)
  | starsBuy (key : String)
  | rollDice (dice_value : Nat)
  | miniGame (game : String) (sample : Nat)
  | battleAi (level : String) (total_ovr : Int) (sample : ℚ)
  | pvpAsRequester (opp : UserData) (my_ovr opp_ovr : Int) (sample : ℚ)
  | pvpAsOpponent (req : UserData) (req_ovr my_ovr : Int) (sample : ℚ)
  | resetAccount (now : Int)

/-- The state of the account after one operation (failed operations and
the `IndexError` paths leave the state each handler leaves behind). -/
def applyOp (u : UserData) : Op → UserData
  | .buyPack catalog pt rand k => (callback_buy_pack catalog u pt rand k).state
  | .openFreePack catalog now rand k => (callback_open_free_pack catalog u now rand k).state
  | .fuseDup catalog cid roll k => fuse_apply catalog u cid roll k
  | .buyCandy catalog k => (callback_buy_candy_random catalog u k).state
  | .starsBuy key => (callback_stars_buy_diamonds_apply u key).state
  | .rollDice v => (callback_roll_dice u v).state
  | .miniGame game sample => callback_minigame_play u game sample
  | .battleAi level total_ovr sample =>
    (callback_battle_ai_level u level total_ovr sample).state
  | .pvpAsRequester opp o1 o2 sample => (conduct_pvp_battle u opp o1 o2 sample).2.1
  | .pvpAsOpponent req o1 o2 sample => (conduct_pvp_battle req u o1 o2 sample).2.2
  | .resetAccount now => callback_reset_yes u now

/-- All four currency balances of the account are non-negative. -/
def Nonneg (u : UserData) : Prop :=
  0 ≤ u.coins ∧ 0 ≤ u.gems ∧ 0 ≤ u.candies ∧ 0 ≤ u.stars_balance

instance (u : UserData) : Decidable (Nonneg u) :=
  inferInstanceAs
    (Decidable (0 ≤ u.coins ∧ 0 ≤ u.gems ∧ 0 ≤ u.candies ∧ 0 ≤ u.stars_balance))

/-! ## Matchmaking operation sequences (for the queue invariant) -/

/-- One matchmaking operation against the shared queue. -/
inductive QOp where
  | request (t : Ticket)
  | cancel (uid : Nat)

/-- The queue after one matchmaking operation. -/
def queue_step (q : List Ticket) : QOp → List Ticket
  | .request t => (callback_battle_pvp q t).2
  | .cancel uid => (callback_battle_cancel_search q uid).2

/-- At most one live ticket per account: no two queued tickets share
an owner. -/
def queue_inv (q : List Ticket) : Prop :=
  q.Pairwise (fun a b => a.user_id ≠ b.user_id)

instance (q : List Ticket) : Decidable (queue_inv q) :=
  inferInstanceAs (Decidable (q.Pairwise _))

/-! ## Concrete data for witnesses and counterexamples -/

/-- A common-rarity catalog card. -/
def cardX : Card :=
  { name_en := some "x"
    name_ru := none
    name := none
    rarity := some "common"
    user_card_id := none
    ovr := 50 }

/-- A rare-rarity catalog card. -/
def cardY : Card :=
  { name_en := some "y"
    name_ru := none
    name := none
    rarity := some "rare"
    user_card_id := none
    ovr := 70 }

/-- An owned copy of `cardX` with a per-account id. -/
def cardXOwned (i : Nat) : Card := { cardX with user_card_id := some i }

/-- A catalog holding only the common card `cardX`. -/
def exCatalogOnlyX : List Card := [cardX]

/-- A catalog with a common and a rare card. -/
def exCatalog : List Card := [cardX, cardY]

/-- An account owning five copies of `cardX` (ids 1–5). -/
def exAccount : UserData :=
  { UserData.init 7 none 0 with
    collection := [cardXOwned 1, cardXOwned 2, cardXOwned 3, cardXOwned 4, cardXOwned 5]
    card_id_counter := 6 }

/-! ## Supporting lemmas -/

/-- Once the three fusion preconditions pass, the commit block either
raises on a fully empty catalog or succeeds. -/
theorem fuse_commit_shape (catalog : List Card) (u : UserData) (target : Card)
    (next_rarity : String) (roll k : Nat) :
    (∃ v, fuse_commit catalog u target next_rarity roll k = .catalogEmpty v) ∨
    (∃ v c r, fuse_commit catalog u target next_rarity roll k = .success v c r) := by
  unfold fuse_commit
  dsimp only
  split
  · exact Or.inl ⟨_, rfl⟩
  · exact Or.inr ⟨_, _, _, rfl⟩

/-- The selection loop of `get_random_card` picks the first entry, in
declared order, whose running weight sum (started at `cum`) exceeds the
draw, and `"common"` when no entry triggers. -/
theorem select_rarity_go_spec (rand : ℚ) :
    ∀ (probs : List (String × ℚ)) (cum : ℚ),
      select_rarity_go probs rand cum =
        (match (cumulative_sums probs cum).find? (fun x => rand < x.2) with
         | some x => x.1
         | none => "common") := by
  intro probs
  induction probs with
  | nil => intro cum; rfl
  | cons hd tl ih =>
    intro cum
    obtain ⟨rar, prob⟩ := hd
    simp only [select_rarity_go, cumulative_sums]
    by_cases h : rand < cum + prob
    · rw [if_pos h, List.find?_cons_of_pos _ (by simpa using h)]
    · rw [if_neg h, List.find?_cons_of_neg _ (by simpa using h), ih]

/-- The bucket loop of `get_random_card` returns the first tier, along
the given walk, whose catalog bucket is non-empty. -/
theorem first_nonempty_pool_spec (catalog : List Card) :
    ∀ tiers : List String,
      first_nonempty_pool catalog tiers =
        (tiers.map (fun r => catalog.filter (fun c => c.rarity == some r))).find?
          (fun p => !p.isEmpty) := by
  intro tiers
  induction tiers with
  | nil => rfl
  | cons r rest ih =>
    simp only [first_nonempty_pool, List.map_cons]
    by_cases h : (catalog.filter (fun c => c.rarity == some r)).isEmpty
    · rw [if_pos h, List.find?_cons_of_neg _ (by simp [h]), ih]
    · rw [if_neg h, List.find?_cons_of_pos _ (by simp [h])]

/-- Assembling the drawn card from the chosen pool commutes with
`Option.map`. -/
theorem draw_assemble (fpool : Option (List Card)) (catalog : List Card) (k : Nat) :
    (match (match fpool with
            | some pool => pyChoice pool k
            | none => pyChoice catalog k) with
     | none => none
     | some c => some { c with user_card_id := none }) =
    (pyChoice (match fpool with | some pool => pool | none => catalog) k).map
      (fun c => { c with user_card_id := none }) := by
  cases fpool with
  | none => rcases h : pyChoice catalog k with _ | c <;> simp [h]
  | some pool => rcases h : pyChoice pool k with _ | c <;> simp [h]

/-- `random.choice` modelled by `pyChoice` yields a member of any
non-empty list. -/
theorem pyChoice_mem {α : Type} (l : List α) (k : Nat) (h : l ≠ []) :
    ∃ a, pyChoice l k = some a ∧ a ∈ l := by
  have hlen : 0 < l.length := List.length_pos.mpr h
  have hk : k % l.length < l.length := Nat.mod_lt _ hlen
  exact ⟨l[k % l.length], List.getElem?_eq_getElem hk, List.getElem_mem hk⟩

/-- A pool returned by the bucket loop is a non-empty rarity bucket of
the catalog. -/
theorem first_nonempty_pool_ne_nil (catalog : List Card) :
    ∀ tiers pool, first_nonempty_pool catalog tiers = some pool →
      pool ≠ [] ∧ ∃ r, pool = catalog.filter (fun c => c.rarity == some r) := by
  intro tiers
  induction tiers with
  | nil => intro pool h; exact absurd h (by simp [first_nonempty_pool])
  | cons r rest ih =>
    intro pool h
    simp only [first_nonempty_pool] at h
    by_cases hp : (catalog.filter (fun c => c.rarity == some r)).isEmpty
    · rw [if_pos hp] at h
      exact ih pool h
    · rw [if_neg hp] at h
      injection h with h
      subst h
      exact ⟨by simpa [List.isEmpty_iff] using hp, r, rfl⟩

/-- On a non-empty catalog the pool-then-fallback choice always yields
a card. -/
theorem draw_choice_total (catalog : List Card) (tiers : List String) (k : Nat)
    (h : catalog ≠ []) :
    ∃ c, (match first_nonempty_pool catalog tiers with
          | some pool => pyChoice pool k
          | none => pyChoice catalog k) = some c := by
  rcases hfp : first_nonempty_pool catalog tiers with _ | pool
  · obtain ⟨a, ha, _⟩ := pyChoice_mem catalog k h
    exact ⟨a, by simp [hfp, ha]⟩
  · obtain ⟨hne, _⟩ := first_nonempty_pool_ne_nil catalog tiers pool hfp
    obtain ⟨a, ha, _⟩ := pyChoice_mem pool k hne
    exact ⟨a, by simp [hfp, ha]⟩

/-- On a non-empty catalog `get_random_card` always yields a card. -/
theorem get_random_card_isSome (catalog : List Card) (pack_type : String) (rand : ℚ)
    (k : Nat) (h : catalog ≠ []) :
    ∃ c, get_random_card catalog pack_type rand k = some c := by
  unfold get_random_card
  dsimp only
  obtain ⟨a, ha⟩ := draw_choice_total catalog
    (RARITY_FALLBACK_ORDER.drop
      (match RARITY_FALLBACK_ORDER.indexOf?
          (select_rarity_go ((PACK_PROBABILITIES.lookup pack_type).getD BASIC_PROBS) rand 0) with
       | some i => i
       | none => RARITY_FALLBACK_ORDER.length - 1)) k h
  rw [ha]
  exact ⟨_, rfl⟩

/-- The fusion reward is never negative. -/
theorem get_candies_for_fuse_nonneg (rarity : String) (roll : Nat) :
    0 ≤ get_candies_for_fuse rarity roll := by
  unfold get_candies_for_fuse
  dsimp only
  exact le_min (by norm_num) (le_max_left 0 _)

/-- The removal loop of the fusion engine: as long as the collection
holds at least `5 - c` identity-matching cards, it removes exactly
`5 - c` of them (`c` is the running `removed` counter) and nothing
else. -/
theorem remove_dups_spec (key : String × String) (l : List Card) :
    ∀ c : Nat, 5 - c ≤ l.countP (fun x => card_identity_key x == key) →
      (remove_dups key l c).countP (fun x => card_identity_key x == key) + (5 - c) =
        l.countP (fun x => card_identity_key x == key) ∧
      (remove_dups key l c).length + (5 - c) = l.length := by
  induction l with
  | nil =>
    intro c h
    simp only [List.countP_nil, Nat.le_zero] at h
    simp [remove_dups, h]
  | cons x xs ih =>
    intro c h
    by_cases hm : card_identity_key x = key
    · have hx : (card_identity_key x == key) = true := by simp [hm]
      have hcount : (x :: xs).countP (fun x => card_identity_key x == key) =
          xs.countP (fun x => card_identity_key x == key) + 1 := by
        simp [List.countP_cons, hx]
      by_cases hc : c < 5
      · rw [remove_dups, if_pos ⟨hc, hm⟩]
        rw [hcount] at h
        obtain ⟨ih1, ih2⟩ := ih (c + 1) (by omega)
        rw [hcount]
        exact ⟨by omega, by simp only [List.length_cons]; omega⟩
      · rw [remove_dups, if_neg (fun hand => hc hand.1)]
        obtain ⟨ih1, ih2⟩ := ih c (by omega)
        have hcount2 : (x :: remove_dups key xs c).countP
              (fun x => card_identity_key x == key) =
            (remove_dups key xs c).countP (fun x => card_identity_key x == key) + 1 := by
          simp [List.countP_cons, hx]
        rw [hcount, hcount2]
        exact ⟨by omega, by simp only [List.length_cons]; omega⟩
    · have hx : (card_identity_key x == key) = false := by simp [hm]
      have hcount : (x :: xs).countP (fun x => card_identity_key x == key) =
          xs.countP (fun x => card_identity_key x == key) := by
        simp [List.countP_cons, hx]
      rw [remove_dups, if_neg (fun hand => hm hand.2)]
      rw [hcount] at h
      obtain ⟨ih1, ih2⟩ := ih c h
      have hcount2 : (x :: remove_dups key xs c).countP
            (fun x => card_identity_key x == key) =
          (remove_dups key xs c).countP (fun x => card_identity_key x == key) := by
        simp [List.countP_cons, hx]
      rw [hcount, hcount2]
      exact ⟨by omega, by simp only [List.length_cons]; omega⟩

/-- The upgrade map never maps a rarity to itself. -/
theorem upgrade_ne (r n : String) (h : RARITY_UPGRADE_MAP.lookup r = some n) : n ≠ r := by
  simp only [RARITY_UPGRADE_MAP, List.lookup] at h
  repeat' split at h
  all_goals simp_all
  all_goals (intro he; subst he; simp_all)

/-- Once the preconditions have passed and the catalog is non-empty,
the commit block succeeds, with an explicit description of the
resulting account; the drawn replacement comes from the
upgraded-rarity bucket whenever that bucket is non-empty. -/
theorem fuse_commit_success (catalog : List Card) (u : UserData) (target : Card)
    (next_rarity : String) (roll k : Nat) (hcat : catalog ≠ []) :
    ∃ c : Card,
      ((catalog.filter (fun x => x.rarity == some next_rarity)).isEmpty = false →
        c ∈ catalog.filter (fun x => x.rarity == some next_rarity)) ∧
      fuse_commit catalog u target next_rarity roll k = .success
        { u with
          collection :=
            remove_dups (card_identity_key target) u.collection 0 ++
              [{ c with user_card_id := some u.card_id_counter }]
          candies := u.candies + max 0 (get_candies_for_fuse (target.rarity.getD "common") roll)
          card_id_counter := u.card_id_counter + 1 }
        { c with user_card_id := some u.card_id_counter }
        (get_candies_for_fuse (target.rarity.getD "common") roll) := by
  unfold fuse_commit
  dsimp only
  by_cases hpool : (catalog.filter (fun x => x.rarity == some next_rarity)).isEmpty
  · rw [if_pos hpool]
    obtain ⟨a, ha⟩ := draw_choice_total catalog
      (RARITY_FALLBACK_ORDER.drop
        (match RARITY_FALLBACK_ORDER.indexOf? next_rarity with
         | some i => i
         | none => 0)) k hcat
    rw [ha]
    refine ⟨a, ?_, ?_⟩
    · intro hfalse
      rw [hpool] at hfalse
      simp at hfalse
    · rfl
  · rw [if_neg hpool]
    have hne : catalog.filter (fun x => x.rarity == some next_rarity) ≠ [] := by
      simpa [List.isEmpty_iff] using hpool
    obtain ⟨a, ha, hmem⟩ := pyChoice_mem _ k hne
    rw [ha]
    refine ⟨a, ?_, ?_⟩
    · exact fun _ => hmem
    · rfl

/-- Every diamonds-for-Stars package credits a non-negative diamond
amount. -/
theorem lookup_diamonds_nonneg (key : String) (d c : Int)
    (h : DIAMONDS_FOR_STARS.lookup key = some (d, c)) : 0 ≤ d := by
  simp only [DIAMONDS_FOR_STARS, List.lookup] at h
  repeat' split at h
  all_goals simp_all
  all_goals omega

/-- Every scripted-battle level pays a non-negative win reward. -/
theorem lookup_ai_reward_nonneg (level : String) (a w l : Int)
    (h : AI_LEVELS.lookup level = some (a, w, l)) : 0 ≤ w := by
  simp only [AI_LEVELS, List.lookup] at h
  repeat' split at h
  all_goals simp_all
  all_goals omega

/-- Mini-game payouts are never negative. -/
theorem minigame_coins_nonneg (game : String) (sample : Nat) :
    0 ≤ minigame_coins game sample := by
  unfold minigame_coins
  split_ifs <;> omega

/-- A pack purchase keeps all four currency balances non-negative. -/
theorem buy_pack_state_nonneg (catalog : List Card) (u : UserData) (pt : String)
    (rand : ℚ) (k : Nat) (h : Nonneg u) :
    Nonneg (callback_buy_pack catalog u pt rand k).state := by
  obtain ⟨h1, h2, h3, h4⟩ := h
  unfold callback_buy_pack
  rcases hp : PACK_PRICES.lookup pt with _ | price <;>
    simp only [hp, BuyOutcome.state]
  · exact ⟨h1, h2, h3, h4⟩
  · by_cases hc : price.1 ≠ 0 ∧ u.coins < price.1
    · rw [if_pos hc]
      exact ⟨h1, h2, h3, h4⟩
    · rw [if_neg hc]
      by_cases hg : price.2 ≠ 0 ∧ u.gems < price.2
      · rw [if_pos hg]
        exact ⟨h1, h2, h3, h4⟩
      · rw [if_neg hg]
        rcases hdraw : get_random_card catalog pt rand k with _ | cd <;>
          simp only [hdraw, BuyOutcome.state] <;>
          refine ⟨?_, ?_, ?_, ?_⟩ <;>
          split_ifs <;>
          (try dsimp only) <;>
          omega

/-- Opening a free pack keeps all four currency balances non-negative
(it never touches them). -/
theorem free_pack_state_nonneg (catalog : List Card) (u : UserData) (now : Int)
    (rand : ℚ) (k : Nat) (h : Nonneg u) :
    Nonneg (callback_open_free_pack catalog u now rand k).state := by
  obtain ⟨h1, h2, h3, h4⟩ := h
  unfold callback_open_free_pack UserData.check_free_packs_refresh
  dsimp only
  rcases hdraw : get_random_card catalog "basic" rand k with _ | cd <;>
    split_ifs <;>
    simp only [FreePackOutcome.state] <;>
    refine ⟨?_, ?_, ?_, ?_⟩ <;>
    (try dsimp only) <;>
    omega

/-- A fusion attempt keeps all four currency balances non-negative
(only candies move, and only upward). -/
theorem fuse_state_nonneg (catalog : List Card) (u : UserData) (cid roll k : Nat)
    (h : Nonneg u) : Nonneg (fuse_apply catalog u cid roll k) := by
  obtain ⟨h1, h2, h3, h4⟩ := h
  unfold fuse_apply fuse
  rcases hf : u.collection.find? (fun c => c.user_card_id == some cid) with _ | target <;>
    simp only [hf, FuseOutcome.state]
  · exact ⟨h1, h2, h3, h4⟩
  · rcases hl : RARITY_UPGRADE_MAP.lookup (target.rarity.getD "common") with _ | next <;>
      simp only [hl, FuseOutcome.state]
    · exact ⟨h1, h2, h3, h4⟩
    · split_ifs with hd
      · simp only [FuseOutcome.state]
        exact ⟨h1, h2, h3, h4⟩
      · unfold fuse_commit
        dsimp only
        have hmax : (0 : Int) ≤
            max 0 (get_candies_for_fuse (target.rarity.getD "common") roll) :=
          le_max_left 0 _
        split_ifs with hpool
        · generalize (match RARITY_FALLBACK_ORDER.indexOf? next with
            | some i => i
            | none => 0) = si
          rcases hfp : first_nonempty_pool catalog (RARITY_FALLBACK_ORDER.drop si)
              with _ | p2 <;> simp only [hfp]
          · rcases hpc : pyChoice catalog k with _ | c <;>
              simp only [hpc, FuseOutcome.state] <;>
              refine ⟨?_, ?_, ?_, ?_⟩ <;> (try dsimp only) <;> omega
          · rcases hpc : pyChoice p2 k with _ | c <;>
              simp only [hpc, FuseOutcome.state] <;>
              refine ⟨?_, ?_, ?_, ?_⟩ <;> (try dsimp only) <;> omega
        · rcases hpc : pyChoice (catalog.filter (fun c => c.rarity == some next)) k
              with _ | c <;>
            simp only [hpc, FuseOutcome.state] <;>
            refine ⟨?_, ?_, ?_, ?_⟩ <;> (try dsimp only) <;> omega

/-- A candy-shop purchase keeps all four currency balances
non-negative. -/
theorem candy_state_nonneg (catalog : List Card) (u : UserData) (k : Nat)
    (h : Nonneg u) : Nonneg (callback_buy_candy_random catalog u k).state := by
  obtain ⟨h1, h2, h3, h4⟩ := h
  unfold callback_buy_candy_random CANDY_SHOP_PRICE_RANDOM
  dsimp only
  split_ifs with hx
  · exact ⟨h1, h2, h3, h4⟩
  · simp only [CandyBuyOutcome.state]
    refine ⟨?_, ?_, ?_, ?_⟩ <;> (try dsimp only) <;> omega

/-- A Stars-to-diamonds conversion keeps all four currency balances
non-negative. -/
theorem stars_state_nonneg (u : UserData) (key : String) (h : Nonneg u) :
    Nonneg (callback_stars_buy_diamonds_apply u key).state := by
  obtain ⟨h1, h2, h3, h4⟩ := h
  unfold callback_stars_buy_diamonds_apply
  rcases hp : DIAMONDS_FOR_STARS.lookup key with _ | pack <;>
    simp only [hp, StarsBuyOutcome.state]
  · exact ⟨h1, h2, h3, h4⟩
  · have hd : 0 ≤ pack.1 := lookup_diamonds_nonneg key pack.1 pack.2 (by rw [hp])
    split_ifs with hs
    · simp only [StarsBuyOutcome.state]
      exact ⟨h1, h2, h3, h4⟩
    · simp only [StarsBuyOutcome.state]
      refine ⟨?_, ?_, ?_, ?_⟩ <;> (try dsimp only) <;> omega

/-- A dice game keeps all four currency balances non-negative. -/
theorem dice_state_nonneg (u : UserData) (v : Nat) (h : Nonneg u) :
    Nonneg (callback_roll_dice u v).state := by
  obtain ⟨h1, h2, h3, h4⟩ := h
  unfold callback_roll_dice
  dsimp only
  split_ifs <;> simp only [DiceOutcome.state] <;>
    refine ⟨?_, ?_, ?_, ?_⟩ <;> (try dsimp only) <;> omega

/-- A mini-game keeps all four currency balances non-negative. -/
theorem minigame_state_nonneg (u : UserData) (game : String) (sample : Nat)
    (h : Nonneg u) : Nonneg (callback_minigame_play u game sample) := by
  obtain ⟨h1, h2, h3, h4⟩ := h
  have hmg := minigame_coins_nonneg game sample
  unfold callback_minigame_play
  dsimp only
  split_ifs <;> refine ⟨?_, ?_, ?_, ?_⟩ <;> (try dsimp only) <;> omega

/-- A scripted battle keeps all four currency balances non-negative. -/
theorem ai_state_nonneg (u : UserData) (level : String) (total_ovr : Int) (s : ℚ)
    (h : Nonneg u) : Nonneg (callback_battle_ai_level u level total_ovr s).state := by
  obtain ⟨h1, h2, h3, h4⟩ := h
  unfold callback_battle_ai_level
  rcases hp : AI_LEVELS.lookup level with _ | z <;> simp only [hp, AiBattleOutcome.state]
  · exact ⟨h1, h2, h3, h4⟩
  · have hw : 0 ≤ z.2.1 := lookup_ai_reward_nonneg level z.1 z.2.1 z.2.2 (by rw [hp])
    split_ifs <;> simp only [AiBattleOutcome.state] <;>
      refine ⟨?_, ?_, ?_, ?_⟩ <;> (try dsimp only) <;> omega

/-- A PvP battle keeps the requester's currency balances
non-negative. -/
theorem pvp_p1_nonneg (p1 p2 : UserData) (o1 o2 : Int) (s : ℚ) (h : Nonneg p1) :
    Nonneg (conduct_pvp_battle p1 p2 o1 o2 s).2.1 := by
  obtain ⟨h1, h2, h3, h4⟩ := h
  unfold conduct_pvp_battle
  dsimp only
  split_ifs <;> refine ⟨?_, ?_, ?_, ?_⟩ <;> (try dsimp only) <;> omega

/-- A PvP battle keeps the queued opponent's currency balances
non-negative. -/
theorem pvp_p2_nonneg (p1 p2 : UserData) (o1 o2 : Int) (s : ℚ) (h : Nonneg p2) :
    Nonneg (conduct_pvp_battle p1 p2 o1 o2 s).2.2 := by
  obtain ⟨h1, h2, h3, h4⟩ := h
  unfold conduct_pvp_battle
  dsimp only
  split_ifs <;> refine ⟨?_, ?_, ?_, ?_⟩ <;> (try dsimp only) <;> omega

/-- The account reset keeps all four currency balances non-negative. -/
theorem reset_state_nonneg (u : UserData) (now : Int) (h : Nonneg u) :
    Nonneg (callback_reset_yes u now) := by
  obtain ⟨h1, h2, h3, h4⟩ := h
  unfold callback_reset_yes
  refine ⟨?_, ?_, ?_, ?_⟩ <;> (try dsimp only) <;> omega

/-- Every exposed operation preserves non-negativity of the four
currency balances. -/
theorem applyOp_nonneg (u : UserData) (op : Op) (h : Nonneg u) : Nonneg (applyOp u op) := by
  cases op with
  | buyPack catalog pt rand k => exact buy_pack_state_nonneg catalog u pt rand k h
  | openFreePack catalog now rand k => exact free_pack_state_nonneg catalog u now rand k h
  | fuseDup catalog cid roll k => exact fuse_state_nonneg catalog u cid roll k h
  | buyCandy catalog k => exact candy_state_nonneg catalog u k h
  | starsBuy key => exact stars_state_nonneg u key h
  | rollDice v => exact dice_state_nonneg u v h
  | miniGame game sample => exact minigame_state_nonneg u game sample h
  | battleAi level total_ovr sample => exact ai_state_nonneg u level total_ovr sample h
  | pvpAsRequester opp o1 o2 sample => exact pvp_p1_nonneg u opp o1 o2 sample h
  | pvpAsOpponent req o1 o2 sample => exact pvp_p2_nonneg req u o1 o2 sample h
  | resetAccount now => exact reset_state_nonneg u now h

/-- `find?` returns the head of the filtered list. -/
theorem find?_eq_head?_filter {α : Type} (p : α → Bool) (l : List α) :
    l.find? p = (l.filter p).head? := by
  induction l with
  | nil => rfl
  | cons a tl ih =>
    by_cases h : p a
    · rw [List.find?_cons_of_pos _ h, List.filter_cons_of_pos h]
      rfl
    · rw [List.find?_cons_of_neg _ (by simpa using h),
        List.filter_cons_of_neg (by simpa using h), ih]

/-- `find?` over an already-filtered list returns its head. -/
theorem filter_find?_self {α : Type} (p : α → Bool) (l : List α) :
    (l.filter p).find? p = (l.filter p).head? := by
  rw [find?_eq_head?_filter, List.filter_filter]
  simp

/-- Cancellation: success is reported exactly when a ticket of the
account is queued; on failure the queue is untouched; on success the
first such ticket (and nothing else) is removed. -/
theorem cancel_search_spec (uid : Nat) (q : List Ticket) :
    ((callback_battle_cancel_search q uid).1 = true ↔ ∃ e ∈ q, e.user_id = uid) ∧
    ((callback_battle_cancel_search q uid).1 = false →
      (callback_battle_cancel_search q uid).2 = q) ∧
    ((callback_battle_cancel_search q uid).1 = true →
      ∃ l1 e l2, q = l1 ++ e :: l2 ∧ e.user_id = uid ∧
        (∀ x ∈ l1, x.user_id ≠ uid) ∧
        (callback_battle_cancel_search q uid).2 = l1 ++ l2) := by
  induction q with
  | nil => simp [callback_battle_cancel_search]
  | cons e rest ih =>
    obtain ⟨ih1, ih2, ih3⟩ := ih
    unfold callback_battle_cancel_search
    by_cases he : e.user_id == uid
    · rw [if_pos he]
      refine ⟨?_, ?_, fun _ => ?_⟩
      · simp only [true_iff]
        exact ⟨e, List.mem_cons_self e rest, by simpa using he⟩
      · intro hcontra
        simp at hcontra
      · exact ⟨[], e, rest, rfl, by simpa using he, by simp, rfl⟩
    · rw [if_neg he]
      dsimp only
      refine ⟨?_, ?_, ?_⟩
      · constructor
        · intro hx
          obtain ⟨x, hmem, hxid⟩ := ih1.mp hx
          exact ⟨x, List.mem_cons_of_mem _ hmem, hxid⟩
        · rintro ⟨x, hmem, hxid⟩
          rcases List.mem_cons.mp hmem with rfl | hmem
          · exact absurd hxid (by simpa using he)
          · exact ih1.mpr ⟨x, hmem, hxid⟩
      · intro hfalse
        rw [ih2 hfalse]
      · intro htrue
        obtain ⟨l1, x, l2, hsplit, hxid, hl1, hres⟩ := ih3 htrue
        refine ⟨e :: l1, x, l2, by rw [List.cons_append, hsplit], hxid, ?_, ?_⟩
        · intro y hy
          rcases List.mem_cons.mp hy with rfl | hy
          · simpa using he
          · exact hl1 y hy
        · rw [List.cons_append, hres]

/-- Cancellation only removes elements: the resulting queue is a
sublist of the original. -/
theorem cancel_search_sublist (uid : Nat) (q : List Ticket) :
    List.Sublist (callback_battle_cancel_search q uid).2 q := by
  induction q with
  | nil => simp [callback_battle_cancel_search]
  | cons e rest ih =>
    unfold callback_battle_cancel_search
    by_cases he : e.user_id == uid
    · rw [if_pos he]
      exact List.sublist_cons_self e rest
    · rw [if_neg he]
      exact ih.cons₂ e

/-- A matchmaking request preserves the one-ticket-per-account
invariant. -/
theorem battle_pvp_inv (q : List Ticket) (t : Ticket) (h : queue_inv q) :
    queue_inv (callback_battle_pvp q t).2 := by
  have hq1 : queue_inv (q.filter (fun e => !(e.user_id == t.user_id))) :=
    h.sublist (List.filter_sublist q)
  unfold callback_battle_pvp
  dsimp only
  rcases hfind : (q.filter (fun e => !(e.user_id == t.user_id))).find?
      (fun e => !(e.user_id == t.user_id)) with _ | opp <;> simp only [hfind]
  · refine List.pairwise_append.mpr ⟨hq1, List.pairwise_singleton _ _, ?_⟩
    intro a ha b hb
    have hpa := (List.mem_filter.mp ha).2
    rcases List.mem_singleton.mp hb with rfl
    simpa using hpa
  · exact hq1.sublist (List.erase_sublist opp _)

/-- A cancellation preserves the one-ticket-per-account invariant. -/
theorem cancel_search_inv (q : List Ticket) (uid : Nat) (h : queue_inv q) :
    queue_inv (callback_battle_cancel_search q uid).2 :=
  h.sublist (cancel_search_sublist uid q)

/-- The behavioral contract of a matchmaking request: when it pairs,
it consumed the first ticket of a different account and left neither
party queued; when it reports searching, it enqueued exactly one
ticket for the requester on top of the stale-free queue. -/
theorem battle_pvp_spec (q : List Ticket) (t : Ticket) (h : queue_inv q) :
    (∀ opp, (callback_battle_pvp q t).1 = .paired opp →
      q.find? (fun e => !(e.user_id == t.user_id)) = some opp ∧
      ∀ e ∈ (callback_battle_pvp q t).2,
        e.user_id ≠ t.user_id ∧ e.user_id ≠ opp.user_id) ∧
    ((callback_battle_pvp q t).1 = .searching →
      (callback_battle_pvp q t).2 =
        q.filter (fun e => !(e.user_id == t.user_id)) ++ [t] ∧
      (callback_battle_pvp q t).2.filter (fun e => e.user_id == t.user_id) = [t]) := by
  have hq1 : queue_inv (q.filter (fun e => !(e.user_id == t.user_id))) :=
    h.sublist (List.filter_sublist q)
  unfold callback_battle_pvp
  dsimp only
  rcases hfind : (q.filter (fun e => !(e.user_id == t.user_id))).find?
      (fun e => !(e.user_id == t.user_id)) with _ | opp <;> simp only [hfind]
  · refine ⟨fun opp hopp => MatchOutcome.noConfusion hopp, fun _ => ⟨trivial, ?_⟩⟩
    rw [List.filter_append]
    have hnil : (q.filter (fun e => !(e.user_id == t.user_id))).filter
        (fun e => e.user_id == t.user_id) = [] := by
      rw [List.filter_eq_nil_iff]
      intro a ha
      have := (List.mem_filter.mp ha).2
      simpa using this
    rw [hnil]
    simp
  · refine ⟨fun opp2 hopp => ?_, fun hcontra => MatchOutcome.noConfusion hcontra⟩
    injection hopp with hopp
    subst hopp
    constructor
    · rw [find?_eq_head?_filter, ← filter_find?_self]
      exact hfind
    · rcases hq1' : q.filter (fun e => !(e.user_id == t.user_id)) with _ | ⟨a, tail⟩
      · rw [hq1'] at hfind
        simp at hfind
      · rw [hq1'] at hfind
        have hpa : (!(a.user_id == t.user_id)) = true := by
          have : a ∈ q.filter (fun e => !(e.user_id == t.user_id)) := by
            rw [hq1']
            exact List.mem_cons_self a tail
          exact (List.mem_filter.mp this).2
        rw [List.find?_cons, hpa] at hfind
        injection hfind with hfind
        subst hfind
        rw [hq1', List.erase_cons_head]
        intro e he
        have hmemq1 : e ∈ q.filter (fun x => !(x.user_id == t.user_id)) := by
          rw [hq1']
          exact List.mem_cons_of_mem _ he
        constructor
        · have := (List.mem_filter.mp hmemq1).2
          simpa using this
        · have hpw : (q.filter (fun x => !(x.user_id == t.user_id))).Pairwise
              (fun a b => a.user_id ≠ b.user_id) := hq1
          rw [hq1', List.pairwise_cons] at hpw
          exact fun hcontra => hpw.1 e he (by rw [hcontra])

/-- A single matchmaking operation preserves the queue invariant. -/
theorem queue_step_inv (q : List Ticket) (op : QOp) (h : queue_inv q) :
    queue_inv (queue_step q op) := by
  cases op with
  | request t => exact battle_pvp_inv q t h
  | cancel uid => exact cancel_search_inv q uid h

/-- Every sequence of matchmaking operations, run from a queue
satisfying the invariant, preserves it. -/
theorem queue_fold_inv (ops : List QOp) :
    ∀ q, queue_inv q → queue_inv (ops.foldl queue_step q) := by
  induction ops with
  | nil => exact fun q h => h
  | cons op rest ih => exact fun q h => ih (queue_step q op) (queue_step_inv q op h)

/-! ## Theorems -/

/-- C1 (amended): a successful fuse removes exactly 5
identity-matching instances, appends exactly 1 instance drawn at the
upgraded rarity (or via the fallback walk) and credits the
(non-negative) reward, so the collection size drops by exactly 4 net;
the duplicate count for the target's identity key drops by exactly 5
minus 1 for the appended card if its identity key equals the target's
(possible only through the fallback walk) — in particular it drops by
exactly 5 whenever the catalog has at least one card at the upgraded
rarity. -/
theorem fuse_success_effects (catalog : List Card) (u : UserData) (cid roll k : Nat)
    (target : Card) (next_rarity : String)
    (hfind : u.collection.find? (fun c => c.user_card_id == some cid) = some target)
    (hup : RARITY_UPGRADE_MAP.lookup (target.rarity.getD "common") = some next_rarity)
    (hdup : 5 ≤ count_duplicates u.collection target)
    (hcat : catalog ≠ []) :
    ∃ u' newCard reward,
      fuse catalog u cid roll k = .success u' newCard reward ∧
      u'.collection.length + 4 = u.collection.length ∧
      0 ≤ reward ∧
      u'.candies = u.candies + reward ∧
      u'.collection.countP (fun c => card_identity_key c == card_identity_key target) + 5 =
        count_duplicates u.collection target +
          (if card_identity_key newCard = card_identity_key target then 1 else 0) ∧
      ((catalog.filter (fun c => c.rarity == some next_rarity)).isEmpty = false →
        u'.collection.countP (fun c => card_identity_key c == card_identity_key target) + 5 =
          count_duplicates u.collection target) := by
  obtain ⟨c, hcmem, hcommit⟩ := fuse_commit_success catalog u target next_rarity roll k hcat
  have hfuse : fuse catalog u cid roll k = fuse_commit catalog u target next_rarity roll k := by
    unfold fuse
    simp only [hfind]
    rw [hup]
    dsimp only
    rw [if_neg (by omega)]
  obtain ⟨hcnt, hlen⟩ := remove_dups_spec (card_identity_key target) u.collection 0
    (by simpa [count_duplicates] using hdup)
  rw [hfuse, hcommit]
  have hcore : ∀ newCard : Card,
      (remove_dups (card_identity_key target) u.collection 0 ++ [newCard]).countP
          (fun c => card_identity_key c == card_identity_key target) + 5 =
        count_duplicates u.collection target +
          (if card_identity_key newCard = card_identity_key target then 1 else 0) := by
    intro newCard
    rw [List.countP_append]
    unfold count_duplicates
    by_cases hk : card_identity_key newCard = card_identity_key target
    · rw [if_pos hk]
      have h1 : ([newCard].countP (fun c => card_identity_key c == card_identity_key target)) = 1 := by
        simp [List.countP_cons, hk]
      rw [h1]
      omega
    · have h1 : ([newCard].countP (fun c => card_identity_key c == card_identity_key target)) = 0 := by
        simp [List.countP_cons, hk]
      rw [h1, if_neg hk]
      omega
  refine ⟨_, _, _, rfl, ?_, ?_, ?_, ?_, ?_⟩
  · simp only [List.length_append, List.length_cons, List.length_nil]
    omega
  · exact get_candies_for_fuse_nonneg _ _
  · rw [max_eq_right (get_candies_for_fuse_nonneg _ _)]
  · exact hcore _
  · intro hpoolne
    have hmem := hcmem hpoolne
    have hrar : c.rarity = some next_rarity := by
      have := (List.mem_filter.mp hmem).2
      simpa using this
    have hkne : card_identity_key { c with user_card_id := some u.card_id_counter } ≠
        card_identity_key target := by
      intro he
      apply upgrade_ne _ _ hup
      have h2 : ({ c with user_card_id := some u.card_id_counter } : Card).rarity.getD "common" =
          target.rarity.getD "common" := congrArg Prod.snd he
      rw [← h2]
      simp [hrar]
    rw [hcore _, if_neg hkne]
    omega

/-- C1 counterexample: with a catalog holding only the common card
itself, fusing 5 duplicates succeeds, the collection drops from 5 to 1
(net 4), but the fallback walk hands back the very same common card, so
the duplicate count for the identity key drops from 5 to 1 — by 4, not
by the claimed 5. -/
theorem fuse_dupcount_counterexample :
    (fuse exCatalogOnlyX exAccount 1 0 0).isSuccess = true ∧
    exAccount.collection.countP
        (fun c => card_identity_key c == card_identity_key cardX) = 5 ∧
    (fuse_apply exCatalogOnlyX exAccount 1 0 0).collection.countP
        (fun c => card_identity_key c == card_identity_key cardX) = 1 ∧
    exAccount.collection.length = 5 ∧
    (fuse_apply exCatalogOnlyX exAccount 1 0 0).collection.length = 1 := by
  exact ⟨by decide, by decide, by decide, by decide, by decide⟩

/-- C1 witness: with a rare card in the catalog, fusing the 5 common
duplicates drops the duplicate count by exactly 5 and the collection
size by exactly 4. -/
theorem fuse_success_effects_witness :
    ∃ u' newCard reward,
      fuse exCatalog exAccount 1 0 0 = .success u' newCard reward ∧
      u'.collection.length + 4 = exAccount.collection.length ∧
      0 ≤ reward ∧
      u'.candies = exAccount.candies + reward ∧
      u'.collection.countP (fun c => card_identity_key c == card_identity_key (cardXOwned 1)) + 5 =
        count_duplicates exAccount.collection (cardXOwned 1) +
          (if card_identity_key newCard = card_identity_key (cardXOwned 1) then 1 else 0) ∧
      ((exCatalog.filter (fun c => c.rarity == some "rare")).isEmpty = false →
        u'.collection.countP
            (fun c => card_identity_key c == card_identity_key (cardXOwned 1)) + 5 =
          count_duplicates exAccount.collection (cardXOwned 1)) :=
  fuse_success_effects exCatalog exAccount 1 0 0 (cardXOwned 1) "rare"
    (by decide) (by decide) (by decide) (by decide)

/-- C2: fusion fails with `NotFound` exactly when no instance with the
requested id exists, with `MaxRarity` exactly when the target's rarity
has no entry in the upgrade map, and with `InsufficientDuplicates`
exactly when fewer than 5 instances share the target's identity key
(case-insensitive display name + rarity, as computed by
`card_identity_key`); every failure returns the account unchanged. -/
theorem fuse_precondition_spec (catalog : List Card) (u : UserData) (cid roll k : Nat) :
    (fuse catalog u cid roll k = .notFound u ↔
      u.collection.find? (fun c => c.user_card_id == some cid) = none) ∧
    (∀ target, u.collection.find? (fun c => c.user_card_id == some cid) = some target →
      (fuse catalog u cid roll k = .maxRarity u ↔
        RARITY_UPGRADE_MAP.lookup (target.rarity.getD "common") = none)) ∧
    (∀ target next_rarity,
      u.collection.find? (fun c => c.user_card_id == some cid) = some target →
      RARITY_UPGRADE_MAP.lookup (target.rarity.getD "common") = some next_rarity →
      (fuse catalog u cid roll k = .insufficientDuplicates u ↔
        count_duplicates u.collection target < 5)) ∧
    (∀ v, (fuse catalog u cid roll k = .notFound v ∨
           fuse catalog u cid roll k = .maxRarity v ∨
           fuse catalog u cid roll k = .insufficientDuplicates v) → v = u) := by
  unfold fuse
  rcases hf : u.collection.find? (fun c => c.user_card_id == some cid) with _ | target <;>
    simp only [hf]
  · refine ⟨by simp, fun t ht => Option.noConfusion ht,
      fun t n ht hn => Option.noConfusion ht, fun v hv => ?_⟩
    rcases hv with hv | hv | hv
    · injection hv with h
      exact h.symm
    · exact FuseOutcome.noConfusion hv
    · exact FuseOutcome.noConfusion hv
  · rcases hl : RARITY_UPGRADE_MAP.lookup (target.rarity.getD "common") with _ | next <;>
      simp only [hl]
    · refine ⟨by simp, fun t ht => ?_, fun t n ht hn => ?_, fun v hv => ?_⟩
      · injection ht with ht
        subst ht
        simp [hl]
      · injection ht with ht
        subst ht
        rw [hl] at hn
        exact Option.noConfusion hn
      · rcases hv with hv | hv | hv
        · exact FuseOutcome.noConfusion hv
        · injection hv with h
          exact h.symm
        · exact FuseOutcome.noConfusion hv
    · by_cases hd : count_duplicates u.collection target < 5
      · rw [if_pos hd]
        refine ⟨by simp, fun t ht => ?_, fun t n ht hn => ?_, fun v hv => ?_⟩
        · injection ht with ht
          subst ht
          simp [hl]
        · injection ht with ht
          subst ht
          simpa using hd
        · rcases hv with hv | hv | hv
          · exact FuseOutcome.noConfusion hv
          · exact FuseOutcome.noConfusion hv
          · injection hv with h
            exact h.symm
      · rw [if_neg hd]
        rcases fuse_commit_shape catalog u target next roll k with ⟨v2, hv2⟩ | ⟨v2, c2, r2, hv2⟩
        · rw [hv2]
          refine ⟨by simp, fun t ht => ?_, fun t n ht hn => ?_, fun v hv => ?_⟩
          · injection ht with ht
            subst ht
            simp [hl]
          · injection ht with ht
            subst ht
            simp [hd]
          · rcases hv with hv | hv | hv <;> exact FuseOutcome.noConfusion hv
        · rw [hv2]
          refine ⟨by simp, fun t ht => ?_, fun t n ht hn => ?_, fun v hv => ?_⟩
          · injection ht with ht
            subst ht
            simp [hl]
          · injection ht with ht
            subst ht
            simp [hd]
          · rcases hv with hv | hv | hv <;> exact FuseOutcome.noConfusion hv

/-- C2 witness: fusing a card id the account does not own fails with
`NotFound` and returns the account unchanged. -/
theorem fuse_precondition_spec_witness :
    fuse exCatalog exAccount 999 0 0 = .notFound exAccount :=
  (fuse_precondition_spec exCatalog exAccount 999 0 0).1.mpr (by decide)

/-- C3: for every pack type and draw value, `get_random_card` selects
the first entry, in the pack's declared `(rarity, weight)` order, whose
running weight sum exceeds the draw (defaulting to the lowest tier,
`"common"`, when no entry triggers), then walks the fixed ladder
mythic → legendary → epic → rare → common from the selected rarity and
picks uniformly (an arbitrary index `k`, reduced modulo the pool size)
from the first non-empty tier, falling back to a uniform pick over the
whole catalog when every tier is empty.  (Proved for every `rand`, in
particular for every `rand ∈ [0, 100)`.) -/
theorem draw_weighted_fallback_spec (catalog : List Card) (pack_type : String)
    (rand : ℚ) (k : Nat) :
    select_rarity_go ((PACK_PROBABILITIES.lookup pack_type).getD BASIC_PROBS) rand 0 =
      spec_selected_rarity ((PACK_PROBABILITIES.lookup pack_type).getD BASIC_PROBS) rand ∧
    get_random_card catalog pack_type rand k =
      (pyChoice (spec_draw_pool catalog pack_type rand) k).map
        (fun c => { c with user_card_id := none }) := by
  constructor
  · rw [select_rarity_go_spec rand ((PACK_PROBABILITIES.lookup pack_type).getD BASIC_PROBS) 0]
    rfl
  · unfold get_random_card spec_draw_pool spec_selected_rarity
    dsimp only
    rw [select_rarity_go_spec rand ((PACK_PROBABILITIES.lookup pack_type).getD BASIC_PROBS) 0,
      first_nonempty_pool_spec]
    exact draw_assemble _ catalog k

/-- C4: on a non-empty catalog a draw never fails, whatever the pack
type, the weight draw and the choice sample — even when the selected
rarity's bucket or every ladder bucket is empty. -/
theorem draw_never_fails (catalog : List Card) (pack_type : String) (rand : ℚ)
    (k : Nat) (h : catalog ≠ []) :
    (get_random_card catalog pack_type rand k).isSome = true := by
  obtain ⟨c, hc⟩ := get_random_card_isSome catalog pack_type rand k h
  simp [hc]

/-- C4 witness: a draw from the two-card example catalog yields a card
for an arbitrary pack type and samples. -/
theorem draw_never_fails_witness :
    (get_random_card exCatalog "ultra" 50 7).isSome = true :=
  draw_never_fails exCatalog "ultra" 50 7 (by decide)

/-- C10: the full-account reset sets coins to 1000, clears gems,
candies, the dice statistics, the collection and the id counter (back
to 1), restores 5 free packs with a fresh refill timestamp, and leaves
the battle rating, the Stars balance, the total-packs-opened counter,
the language and the clan membership unchanged. -/
theorem reset_defaults_and_frame (u : UserData) (now : Int) :
    (callback_reset_yes u now).coins = 1000 ∧
    (callback_reset_yes u now).gems = 0 ∧
    (callback_reset_yes u now).candies = 0 ∧
    (callback_reset_yes u now).dice_wins = 0 ∧
    (callback_reset_yes u now).dice_losses = 0 ∧
    (callback_reset_yes u now).dice_total = 0 ∧
    (callback_reset_yes u now).collection = [] ∧
    (callback_reset_yes u now).card_id_counter = 1 ∧
    (callback_reset_yes u now).free_packs = 5 ∧
    (callback_reset_yes u now).last_free_pack_time = now ∧
    (callback_reset_yes u now).elo = u.elo ∧
    (callback_reset_yes u now).stars_balance = u.stars_balance ∧
    (callback_reset_yes u now).packs_opened_total = u.packs_opened_total ∧
    (callback_reset_yes u now).language = u.language ∧
    (callback_reset_yes u now).clan_id = u.clan_id :=
  ⟨rfl, rfl, rfl, rfl, rfl, rfl, rfl, rfl, rfl, rfl, rfl, rfl, rfl, rfl, rfl⟩

/-- C5: starting from any account with non-negative coin, gem, candy
and Stars balances, every sequence of exposed operations (pack
purchase, free-pack opening, fusion, candy purchase, Stars-to-diamonds
conversion, dice and mini-games, scripted and PvP battles, reset)
keeps all four balances non-negative — and since every prefix of a
sequence is itself a sequence, the invariant holds after every
intermediate step as well. -/
theorem currencies_never_negative (u : UserData) (ops : List Op) (h : Nonneg u) :
    Nonneg (ops.foldl applyOp u) := by
  induction ops generalizing u with
  | nil => exact h
  | cons op rest ih => exact ih (applyOp u op) (applyOp_nonneg u op h)

/-- C5 witness: a fresh account stays non-negative across a concrete
operation sequence touching every currency. -/
theorem currencies_never_negative_witness :
    Nonneg exAccount ∧
    Nonneg ([Op.rollDice 6, Op.miniGame "mg_bowling" 10, Op.starsBuy "d500",
             Op.buyCandy exCatalog 0, Op.fuseDup exCatalog 1 0 0,
             Op.resetAccount 99].foldl applyOp exAccount) :=
  ⟨by decide, currencies_never_negative exAccount _ (by decide)⟩

/-- C6: both two-sided purchases check the payer-side balance before
any mutation.  A pack purchase reports `notEnoughCoins` /
`notEnoughGems` with the account untouched when the checked balance is
below the price, and only otherwise debits both price components and
appends the drawn card; the Stars conversion reports `notEnoughStars`
with the account untouched when the Stars balance is below the package
cost, and only otherwise debits Stars and credits gems. -/
theorem purchase_check_then_mutate (catalog : List Card) (u : UserData)
    (pack_type key : String) (rand : ℚ) (k : Nat)
    (need_coins need_gems diamonds cost : Int)
    (hp : PACK_PRICES.lookup pack_type = some (need_coins, need_gems))
    (hd : DIAMONDS_FOR_STARS.lookup key = some (diamonds, cost)) :
    (need_coins ≠ 0 ∧ u.coins < need_coins →
      callback_buy_pack catalog u pack_type rand k = .notEnoughCoins u) ∧
    (¬ (need_coins ≠ 0 ∧ u.coins < need_coins) →
      need_gems ≠ 0 ∧ u.gems < need_gems →
      callback_buy_pack catalog u pack_type rand k = .notEnoughGems u) ∧
    (¬ (need_coins ≠ 0 ∧ u.coins < need_coins) →
      ¬ (need_gems ≠ 0 ∧ u.gems < need_gems) →
      catalog ≠ [] →
      ∃ u' card, callback_buy_pack catalog u pack_type rand k = .ok u' card ∧
        u'.coins = u.coins - need_coins ∧
        u'.gems = u.gems - need_gems ∧
        u'.candies = u.candies ∧
        u'.stars_balance = u.stars_balance ∧
        u'.collection = u.collection ++ [card]) ∧
    (u.stars_balance < cost →
      callback_stars_buy_diamonds_apply u key = .notEnoughStars u) ∧
    (¬ u.stars_balance < cost →
      callback_stars_buy_diamonds_apply u key =
        .ok { u with stars_balance := u.stars_balance - cost, gems := u.gems + diamonds }) := by
  refine ⟨fun hc => ?_, fun hc hg => ?_, fun hc hg hcat => ?_, fun hs => ?_, fun hs => ?_⟩
  · unfold callback_buy_pack
    simp only [hp]
    rw [if_pos hc]
  · unfold callback_buy_pack
    simp only [hp]
    rw [if_neg hc, if_pos hg]
  · unfold callback_buy_pack
    simp only [hp]
    rw [if_neg hc, if_neg hg]
    obtain ⟨cd, hdraw⟩ := get_random_card_isSome catalog pack_type rand k hcat
    rw [hdraw]
    refine ⟨_, _, rfl, ?_, ?_, ?_, ?_, ?_⟩
    · split_ifs <;> (try dsimp only) <;> omega
    · split_ifs <;> (try dsimp only) <;> omega
    · split_ifs <;> try dsimp only
    · split_ifs <;> try dsimp only
    · split_ifs <;> try dsimp only
  · unfold callback_stars_buy_diamonds_apply
    simp only [hd]
    rw [if_pos hs]
  · unfold callback_stars_buy_diamonds_apply
    simp only [hd]
    rw [if_neg hs]

/-- C6 witness: the theorem instantiated at a fresh account, the
`basic` pack and the `d500` Stars package. -/
theorem purchase_check_then_mutate_witness :
    ((100 : Int) ≠ 0 ∧ exAccount.coins < 100 →
      callback_buy_pack exCatalog exAccount "basic" 50 0 = .notEnoughCoins exAccount) ∧
    (¬ ((100 : Int) ≠ 0 ∧ exAccount.coins < 100) →
      (0 : Int) ≠ 0 ∧ exAccount.gems < 0 →
      callback_buy_pack exCatalog exAccount "basic" 50 0 = .notEnoughGems exAccount) ∧
    (¬ ((100 : Int) ≠ 0 ∧ exAccount.coins < 100) →
      ¬ ((0 : Int) ≠ 0 ∧ exAccount.gems < 0) →
      exCatalog ≠ [] →
      ∃ u' card, callback_buy_pack exCatalog exAccount "basic" 50 0 = .ok u' card ∧
        u'.coins = exAccount.coins - 100 ∧
        u'.gems = exAccount.gems - 0 ∧
        u'.candies = exAccount.candies ∧
        u'.stars_balance = exAccount.stars_balance ∧
        u'.collection = exAccount.collection ++ [card]) ∧
    (exAccount.stars_balance < 250 →
      callback_stars_buy_diamonds_apply exAccount "d500" = .notEnoughStars exAccount) ∧
    (¬ exAccount.stars_balance < 250 →
      callback_stars_buy_diamonds_apply exAccount "d500" =
        .ok { exAccount with stars_balance := exAccount.stars_balance - 250,
                             gems := exAccount.gems + 500 }) :=
  purchase_check_then_mutate exCatalog exAccount "basic" "d500" 50 0 100 0 500 250
    (by decide) (by decide)

/-- C7: the refill check reports `true` and sets the free-pack count to
5 with `last_free_pack_time = now` exactly when at least 4 hours have
passed; otherwise it reports `false` and leaves both fields untouched.
The countdown seconds are `max 0 (4h − (now − lastRefillTime))`. -/
theorem refill_window_spec (u : UserData) (now : Int) :
    ((u.check_free_packs_refresh now).1 = true ↔
      4 * 3600 ≤ now - u.last_free_pack_time) ∧
    (4 * 3600 ≤ now - u.last_free_pack_time →
      u.check_free_packs_refresh now =
        (true, { u with free_packs := 5, last_free_pack_time := now })) ∧
    (¬ 4 * 3600 ≤ now - u.last_free_pack_time →
      u.check_free_packs_refresh now = (false, u)) ∧
    free_packs_seconds_left u now = max 0 (4 * 3600 - (now - u.last_free_pack_time)) := by
  unfold UserData.check_free_packs_refresh free_packs_seconds_left
  dsimp only
  refine ⟨?_, fun h => ?_, fun h => ?_, rfl⟩
  · by_cases hcase : 4 * 3600 ≤ now - u.last_free_pack_time
    · rw [if_pos (by omega)]
      simpa using hcase
    · rw [if_neg (by omega)]
      simpa using hcase
  · rw [if_pos (by omega)]
  · rw [if_neg (by omega)]

/-- C7 witness: an account whose last refill was `4h + 1s` ago is
refilled to 5 free packs. -/
theorem refill_window_spec_witness :
    exAccount.check_free_packs_refresh 14401 =
      (true, { exAccount with free_packs := 5, last_free_pack_time := 14401 }) :=
  (refill_window_spec exAccount 14401).2.1 (by decide)

/-- C8: starting from the empty queue, any sequence of match requests
and cancellations leaves at most one live ticket per account; a
request first drops the requester's stale tickets, then either
consumes the first ticket owned by a different account — leaving
neither party queued — or enqueues exactly one ticket for the
requester; cancellation removes the requester's first ticket and
reports success exactly when one exists, and otherwise reports
not-queued leaving the queue untouched. -/
theorem matchmaking_queue_spec (q : List Ticket) (t : Ticket) (uid : Nat)
    (ops : List QOp) (hq : queue_inv q) :
    queue_inv (ops.foldl queue_step []) ∧
    queue_inv (callback_battle_pvp q t).2 ∧
    queue_inv (callback_battle_cancel_search q uid).2 ∧
    (∀ opp, (callback_battle_pvp q t).1 = .paired opp →
      q.find? (fun e => !(e.user_id == t.user_id)) = some opp ∧
      ∀ e ∈ (callback_battle_pvp q t).2,
        e.user_id ≠ t.user_id ∧ e.user_id ≠ opp.user_id) ∧
    ((callback_battle_pvp q t).1 = .searching →
      (callback_battle_pvp q t).2 =
        q.filter (fun e => !(e.user_id == t.user_id)) ++ [t] ∧
      (callback_battle_pvp q t).2.filter (fun e => e.user_id == t.user_id) = [t]) ∧
    ((callback_battle_cancel_search q uid).1 = true ↔ ∃ e ∈ q, e.user_id = uid) ∧
    ((callback_battle_cancel_search q uid).1 = false →
      (callback_battle_cancel_search q uid).2 = q) ∧
    ((callback_battle_cancel_search q uid).1 = true →
      ∃ l1 e l2, q = l1 ++ e :: l2 ∧ e.user_id = uid ∧
        (∀ x ∈ l1, x.user_id ≠ uid) ∧
        (callback_battle_cancel_search q uid).2 = l1 ++ l2) :=
  ⟨queue_fold_inv ops [] (List.Pairwise.nil),
   battle_pvp_inv q t hq,
   cancel_search_inv q uid hq,
   (battle_pvp_spec q t hq).1,
   (battle_pvp_spec q t hq).2,
   (cancel_search_spec uid q).1,
   (cancel_search_spec uid q).2.1,
   (cancel_search_spec uid q).2.2⟩

/-- C8 witness: the theorem instantiated at a one-ticket queue, a
request from a second account and a cancellation by a third. -/
theorem matchmaking_queue_spec_witness :
    queue_inv ([QOp.request ⟨1, 300⟩, QOp.request ⟨2, 280⟩,
                QOp.cancel 1].foldl queue_step []) ∧
    queue_inv (callback_battle_pvp [⟨5, 100⟩] ⟨1, 300⟩).2 ∧
    queue_inv (callback_battle_cancel_search [⟨5, 100⟩] 2).2 ∧
    (∀ opp, (callback_battle_pvp [⟨5, 100⟩] ⟨1, 300⟩).1 = .paired opp →
      ([⟨5, 100⟩] : List Ticket).find? (fun e => !(e.user_id == 1)) = some opp ∧
      ∀ e ∈ (callback_battle_pvp [⟨5, 100⟩] ⟨1, 300⟩).2,
        e.user_id ≠ 1 ∧ e.user_id ≠ opp.user_id) ∧
    ((callback_battle_pvp [⟨5, 100⟩] ⟨1, 300⟩).1 = .searching →
      (callback_battle_pvp [⟨5, 100⟩] ⟨1, 300⟩).2 =
        ([⟨5, 100⟩] : List Ticket).filter (fun e => !(e.user_id == 1)) ++ [⟨1, 300⟩] ∧
      (callback_battle_pvp [⟨5, 100⟩] ⟨1, 300⟩).2.filter
        (fun e => e.user_id == 1) = [⟨1, 300⟩]) ∧
    ((callback_battle_cancel_search [⟨5, 100⟩] 2).1 = true ↔
      ∃ e ∈ ([⟨5, 100⟩] : List Ticket), e.user_id = 2) ∧
    ((callback_battle_cancel_search [⟨5, 100⟩] 2).1 = false →
      (callback_battle_cancel_search [⟨5, 100⟩] 2).2 = [⟨5, 100⟩]) ∧
    ((callback_battle_cancel_search [⟨5, 100⟩] 2).1 = true →
      ∃ l1 e l2, ([⟨5, 100⟩] : List Ticket) = l1 ++ e :: l2 ∧ e.user_id = 2 ∧
        (∀ x ∈ l1, x.user_id ≠ 2) ∧
        (callback_battle_cancel_search [⟨5, 100⟩] 2).2 = l1 ++ l2) :=
  matchmaking_queue_spec [⟨5, 100⟩] ⟨1, 300⟩ 2
    [QOp.request ⟨1, 300⟩, QOp.request ⟨2, 280⟩, QOp.cancel 1] (by decide)

/-- C9: in both battle paths the requester wins exactly when the
uniform sample is below 0.84 (if the requester's total rating strictly
exceeds the opponent's) or 0.16 (otherwise); the winner gains the fixed
coin reward, the loser's coins drop by the fixed penalty floored at 0,
and the ±30/−25 rating change (floored at 0) happens in the PvP path
only — the scripted-opponent path never touches the rating. -/
theorem battle_outcome_spec (p1 p2 u : UserData) (ovr1 ovr2 total_ovr : Int)
    (level : String) (s : ℚ) (ai_ovr reward_win penalty_lose : Int)
    (hl : AI_LEVELS.lookup level = some (ai_ovr, reward_win, penalty_lose)) :
    ((conduct_pvp_battle p1 p2 ovr1 ovr2 s).1 = true ↔
      s < (if ovr1 > ovr2 then (84:ℚ)/100 else 16/100)) ∧
    (s < (if ovr1 > ovr2 then (84:ℚ)/100 else 16/100) →
      conduct_pvp_battle p1 p2 ovr1 ovr2 s =
        (true,
         { p1 with coins := p1.coins + 100, elo := p1.elo + 30 },
         { p2 with coins := max 0 (p2.coins - 50), elo := max 0 (p2.elo - 25) })) ∧
    (¬ s < (if ovr1 > ovr2 then (84:ℚ)/100 else 16/100) →
      conduct_pvp_battle p1 p2 ovr1 ovr2 s =
        (false,
         { p1 with coins := max 0 (p1.coins - 50), elo := max 0 (p1.elo - 25) },
         { p2 with coins := p2.coins + 100, elo := p2.elo + 30 })) ∧
    (s < (if total_ovr > ai_ovr then (84:ℚ)/100 else 16/100) →
      callback_battle_ai_level u level total_ovr s =
        .done true { u with coins := u.coins + reward_win }) ∧
    (¬ s < (if total_ovr > ai_ovr then (84:ℚ)/100 else 16/100) →
      callback_battle_ai_level u level total_ovr s =
        .done false { u with coins := max 0 (u.coins - penalty_lose) }) := by
  unfold conduct_pvp_battle callback_battle_ai_level
  rw [hl]
  dsimp only
  refine ⟨?_, fun h => ?_, fun h => ?_, fun h => ?_, fun h => ?_⟩
  · split <;> split <;> simp_all
  · rw [if_pos h]
  · rw [if_neg h]
  · rw [if_pos h]
  · rw [if_neg h]

/-- C9 witness: the theorem instantiated at the `novice` scripted
opponent and two concrete accounts. -/
theorem battle_outcome_spec_witness :
    ((conduct_pvp_battle exAccount exAccount 300 200 0).1 = true ↔
      (0:ℚ) < (if (300:Int) > 200 then (84:ℚ)/100 else 16/100)) ∧
    ((0:ℚ) < (if (300:Int) > 200 then (84:ℚ)/100 else 16/100) →
      conduct_pvp_battle exAccount exAccount 300 200 0 =
        (true,
         { exAccount with coins := exAccount.coins + 100, elo := exAccount.elo + 30 },
         { exAccount with coins := max 0 (exAccount.coins - 50),
                          elo := max 0 (exAccount.elo - 25) })) ∧
    (¬ (0:ℚ) < (if (300:Int) > 200 then (84:ℚ)/100 else 16/100) →
      conduct_pvp_battle exAccount exAccount 300 200 0 =
        (false,
         { exAccount with coins := max 0 (exAccount.coins - 50),
                          elo := max 0 (exAccount.elo - 25) },
         { exAccount with coins := exAccount.coins + 100, elo := exAccount.elo + 30 })) ∧
    ((0:ℚ) < (if (300:Int) > 200 then (84:ℚ)/100 else 16/100) →
      callback_battle_ai_level exAccount "novice" 300 0 =
        .done true { exAccount with coins := exAccount.coins + 25 }) ∧
    (¬ (0:ℚ) < (if (300:Int) > 200 then (84:ℚ)/100 else 16/100) →
      callback_battle_ai_level exAccount "novice" 300 0 =
        .done false { exAccount with coins := max 0 (exAccount.coins - 10) }) :=
  battle_outcome_spec exAccount exAccount exAccount 300 200 300 "novice" 0 200 25 10
    (by decide)

end FootballM
